import Mathlib

/-!
# Verification of the gorgonia comparison-kernel matrix and its generator

This file shallowly embeds the two source files of the repository:

* the generated kernel matrix (`part_000`, package `tensor`): element-wise
  comparison kernels `<op><shape><resultKind><typeSuffix>` such as
  `eqDDBoolsI`, `eqDDSameI`, `gtDSSameF64`;
* the generator `cmd/genapi/main.go`: catalog extraction (`constTypes`),
  name normalization, and template emission.

Go slices become Lean `List`s; a Go run-time panic from an out-of-range
index becomes `Option.none`; machine-integer comparisons are embedded via
`Int` (comparison never overflows, so the embedding is exact on all
representable values).
-/

namespace Tensor

/-- Generic form of the array-array boolean-mask kernels of the generated
file.  Every `<op>DDBools<T>` function reads
`retVal = make([]bool, len(a)); for i, v := range a { retVal[i] = v <op> b[i] }; return retVal`.
The two lists are consumed in lockstep, exactly as the loop reads `b[i]`
for `i < len(a)`; `none` models the index-out-of-range panic that the Go
code raises when `b` is exhausted before `a`. -/
def ddBools {α : Type} (op : α → α → Bool) : List α → List α → Option (List Bool)
  | [], _ => some []
  | _ :: _, [] => none
  | v :: xs, w :: ys => (ddBools op xs ys).map (fun r => op v w :: r)

/-- Generic form of the array-array same-type-indicator kernels.  Every
`<op>DDSame<T>` function writes `1` where the comparison holds and `0`
elsewhere, again indexing `b[i]` for `i < len(a)`. -/
def ddSame {α : Type} (one zero : α) (op : α → α → Bool) : List α → List α → Option (List α)
  | [], _ => some []
  | _ :: _, [] => none
  | v :: xs, w :: ys => (ddSame one zero op xs ys).map (fun r => (if op v w then one else zero) :: r)

/-- Generic form of the array-scalar boolean-mask kernels
(`retVal[i] = a[i] <op> b`); total, no second slice is indexed. -/
def dsBools {α : Type} (op : α → α → Bool) (a : List α) (b : α) : List Bool :=
  a.map (fun v => op v b)

/-- Generic form of the array-scalar same-type-indicator kernels. -/
def dsSame {α : Type} (one zero : α) (op : α → α → Bool) (a : List α) (b : α) : List α :=
  a.map (fun v => if op v b then one else zero)

/-- `func eqDDBoolsI(a, b []int) (retVal []bool)` of the generated file. -/
def eqDDBoolsI (a b : List Int) : Option (List Bool) :=
  ddBools (fun x y => x == y) a b

/-- `func eqDDSameI(a, b []int) (retVal []int)` of the generated file. -/
def eqDDSameI (a b : List Int) : Option (List Int) :=
  ddSame 1 0 (fun x y => x == y) a b

/-- `func eqDSBoolsI(a []int, b int) (retVal []bool)` of the generated file. -/
def eqDSBoolsI (a : List Int) (b : Int) : List Bool :=
  dsBools (fun x y => x == y) a b

/-- `func eqDSSameI(a []int, b int) (retVal []int)` of the generated file. -/
def eqDSSameI (a : List Int) (b : Int) : List Int :=
  dsSame 1 0 (fun x y => x == y) a b

/-- `func eqDDBoolsB(a, b []bool) (retVal []bool)` of the generated file. -/
def eqDDBoolsB (a b : List Bool) : Option (List Bool) :=
  ddBools (fun x y => x == y) a b

/-- `func gtDDBoolsI(a, b []int) (retVal []bool)` of the generated file. -/
def gtDDBoolsI (a b : List Int) : Option (List Bool) :=
  ddBools (fun x y => decide (x > y)) a b

/-- `func gtDSSameI(a []int, b int) (retVal []int)` of the generated file. -/
def gtDSSameI (a : List Int) (b : Int) : List Int :=
  dsSame 1 0 (fun x y => decide (x > y)) a b

theorem ddBools_eq_zipWith {α : Type} (op : α → α → Bool) :
    ∀ (a b : List α), a.length ≤ b.length → ddBools op a b = some (List.zipWith op a b) := by
  intro a
  induction a with
  | nil => intro b _; rfl
  | cons x xs ih =>
      intro b h
      cases b with
      | nil => simp at h
      | cons y ys =>
          simp only [List.length_cons, Nat.succ_le_succ_iff] at h
          simp [ddBools, List.zipWith, ih ys h]

theorem ddBools_none_iff {α : Type} (op : α → α → Bool) :
    ∀ (a b : List α), ddBools op a b = none ↔ b.length < a.length := by
  intro a
  induction a with
  | nil => intro b; simp [ddBools]
  | cons x xs ih =>
      intro b
      cases b with
      | nil => simp [ddBools]
      | cons y ys =>
          simp only [ddBools, List.length_cons, Nat.succ_lt_succ_iff, ← ih ys]
          cases hr : ddBools op xs ys <;> simp [hr]

theorem ddBools_take {α : Type} (op : α → α → Bool) :
    ∀ (a b : List α), a.length ≤ b.length →
      ddBools op a b = ddBools op a (b.take a.length) := by
  intro a
  induction a with
  | nil => intro b _; rfl
  | cons x xs ih =>
      intro b h
      cases b with
      | nil => simp at h
      | cons y ys =>
          simp only [List.length_cons, Nat.succ_le_succ_iff] at h
          simp [ddBools, List.take, ih ys h]

theorem ddSame_eq_map_ddBools {α : Type} (one zero : α) (op : α → α → Bool) :
    ∀ (a b : List α),
      ddSame one zero op a b
        = (ddBools op a b).map (List.map (fun t => if t then one else zero)) := by
  intro a
  induction a with
  | nil => intro b; rfl
  | cons x xs ih =>
      intro b
      cases b with
      | nil => rfl
      | cons y ys =>
          simp only [ddSame, ddBools, ih ys, Option.map_map]
          rfl

theorem getD_map_of_lt {α β : Type} (f : α → β) (d : β) (e : α) :
    ∀ (i : Nat) (a : List α), i < a.length → (a.map f).getD i d = f (a.getD i e) := by
  intro i
  induction i with
  | zero =>
      intro a h
      cases a with
      | nil => simp at h
      | cons x xs => rfl
  | succ j ih =>
      intro a h
      cases a with
      | nil => simp at h
      | cons x xs =>
          simp only [List.length_cons, Nat.succ_lt_succ_iff] at h
          simpa using ih xs h

theorem getD_zipWith_of_lt {α β : Type} (op : α → α → β) (d : β) (e : α) :
    ∀ (i : Nat) (a b : List α), i < a.length → i < b.length →
      (List.zipWith op a b).getD i d = op (a.getD i e) (b.getD i e) := by
  intro i
  induction i with
  | zero =>
      intro a b ha hb
      cases a with
      | nil => simp at ha
      | cons x xs =>
          cases b with
          | nil => simp at hb
          | cons y ys => rfl
  | succ j ih =>
      intro a b ha hb
      cases a with
      | nil => simp at ha
      | cons x xs =>
          cases b with
          | nil => simp at hb
          | cons y ys =>
              simp only [List.length_cons, Nat.succ_lt_succ_iff] at ha hb
              simpa using ih xs ys ha hb

/-- C1: for every comparison operator and every supported kind (embedded as an
arbitrary element type with an arbitrary boolean comparison), the array-array
boolean-mask kernel on equal-length inputs returns a bool sequence of length n
whose element i is op(a[i], b[i]); the array-scalar kernel returns a bool
sequence of length n whose element i is op(a[i], b); and in particular
`eqDDBoolsI [1,2,3] [1,5,3] = [true,false,true]` and
`eqDSBoolsI [1,2,3] 2 = [false,true,false]`. -/
theorem compare_kernels_pointwise :
    (∀ (α : Type) (op : α → α → Bool) (a b : List α), a.length = b.length →
        ddBools op a b = some (List.zipWith op a b)) ∧
    (∀ (α : Type) (op : α → α → Bool) (a b : List α), a.length = b.length →
        ((ddBools op a b).getD []).length = a.length) ∧
    (∀ (α : Type) (op : α → α → Bool) (a b : List α) (i : Nat) (d : Bool) (e : α),
        a.length = b.length → i < a.length →
        ((ddBools op a b).getD []).getD i d = op (a.getD i e) (b.getD i e)) ∧
    (∀ (α : Type) (op : α → α → Bool) (a : List α) (b : α),
        (dsBools op a b).length = a.length) ∧
    (∀ (α : Type) (op : α → α → Bool) (a : List α) (b : α) (i : Nat) (d : Bool) (e : α),
        i < a.length → (dsBools op a b).getD i d = op (a.getD i e) b) ∧
    eqDDBoolsI [1, 2, 3] [1, 5, 3] = some [true, false, true] ∧
    eqDSBoolsI [1, 2, 3] 2 = [false, true, false] := by
  refine ⟨fun α op a b h => ddBools_eq_zipWith op a b (Nat.le_of_eq h),
    fun α op a b h => ?_, fun α op a b i d e h hi => ?_,
    fun α op a b => by simp [dsBools], fun α op a b i d e hi => ?_, by decide, by decide⟩
  · rw [ddBools_eq_zipWith op a b (Nat.le_of_eq h)]
    simp [List.length_zipWith, h]
  · rw [ddBools_eq_zipWith op a b (Nat.le_of_eq h)]
    exact getD_zipWith_of_lt op d e i a b hi (h ▸ hi)
  · exact getD_map_of_lt (fun v => op v b) d e i a hi

theorem compare_kernels_pointwise_witness :
    ((ddBools (fun x y : Int => x == y) [1, 2, 3] [1, 5, 3]).getD []).getD 1 true = false :=
  (compare_kernels_pointwise.2.2.1 Int (fun x y : Int => x == y)
    [1, 2, 3] [1, 5, 3] 1 true 0 rfl (by decide)).trans (by decide)

/-- C2: the same-type-indicator kernels agree with the boolean-mask kernels:
the Same result is the Bools result with `true` mapped to the kind's 1 and
`false` to its 0 (stated both as a whole-result equation and pointwise), for
the array-array and the array-scalar shapes; in particular
`eqDDSameI [1,2,3] [1,5,3] = [1,0,1]`. -/
theorem same_indicator_consistency :
    (∀ (α : Type) (one zero : α) (op : α → α → Bool) (a b : List α),
        ddSame one zero op a b
          = (ddBools op a b).map (List.map (fun t => if t then one else zero))) ∧
    (∀ (α : Type) (one zero : α) (op : α → α → Bool) (a : List α) (b : α),
        dsSame one zero op a b = (dsBools op a b).map (fun t => if t then one else zero)) ∧
    (∀ (α : Type) (one zero : α) (op : α → α → Bool) (a b : List α)
        (i : Nat) (d : α) (db : Bool), a.length = b.length → i < a.length →
        ((ddSame one zero op a b).getD []).getD i d
          = (if ((ddBools op a b).getD []).getD i db then one else zero)) ∧
    (∀ (α : Type) (one zero : α) (op : α → α → Bool) (a : List α) (b : α)
        (i : Nat) (d : α) (db : Bool), i < a.length →
        (dsSame one zero op a b).getD i d
          = (if (dsBools op a b).getD i db then one else zero)) ∧
    eqDDSameI [1, 2, 3] [1, 5, 3] = some [1, 0, 1] ∧
    eqDSSameI [1, 2, 3] 2 = [0, 1, 0] := by
  refine ⟨fun α one zero op a b => ddSame_eq_map_ddBools one zero op a b,
    fun α one zero op a b => by simp [dsSame, dsBools, List.map_map],
    fun α one zero op a b i d db h hi => ?_,
    fun α one zero op a b i d db hi => ?_, by decide, by decide⟩
  · rw [ddSame_eq_map_ddBools, ddBools_eq_zipWith op a b (Nat.le_of_eq h)]
    simp only [Option.map_some', Option.getD_some]
    rw [getD_map_of_lt (fun t => if t then one else zero) d db i _
        (by simp only [List.length_zipWith]; omega)]
  · unfold dsSame dsBools
    rw [getD_map_of_lt (fun v => if op v b then one else zero) d d i a hi,
        getD_map_of_lt (fun v => op v b) db d i a hi]

theorem same_indicator_consistency_witness :
    ((ddSame (1 : Int) 0 (fun x y : Int => x == y) [1, 2, 3] [1, 5, 3]).getD []).getD 1 7 = 0 :=
  (same_indicator_consistency.2.2.1 Int 1 0 (fun x y : Int => x == y)
    [1, 2, 3] [1, 5, 3] 1 7 false rfl (by decide)).trans (by decide)

/-- C10: every kernel's result has the length of the first (array) argument,
including length 0 for empty inputs; array-array kernels read only the first
len(a) elements of b, so the result is defined whenever len(b) ≥ len(a) and
depends only on those elements. -/
theorem kernel_length_and_dependency :
    (∀ (α : Type) (op : α → α → Bool) (a b : List α), a.length ≤ b.length →
        (ddBools op a b).isSome = true) ∧
    (∀ (α : Type) (op : α → α → Bool) (a b : List α), a.length ≤ b.length →
        ((ddBools op a b).getD []).length = a.length) ∧
    (∀ (α : Type) (op : α → α → Bool) (a b b' : List α),
        a.length ≤ b.length → a.length ≤ b'.length →
        b.take a.length = b'.take a.length → ddBools op a b = ddBools op a b') ∧
    (∀ (α : Type) (one zero : α) (op : α → α → Bool) (a b b' : List α),
        a.length ≤ b.length → a.length ≤ b'.length →
        b.take a.length = b'.take a.length →
        ddSame one zero op a b = ddSame one zero op a b') ∧
    (∀ (α : Type) (one zero : α) (op : α → α → Bool) (a b : List α),
        a.length ≤ b.length → ((ddSame one zero op a b).getD []).length = a.length) ∧
    (∀ (α : Type) (op : α → α → Bool) (a : List α) (b : α),
        (dsBools op a b).length = a.length) ∧
    (∀ (α : Type) (one zero : α) (op : α → α → Bool) (a : List α) (b : α),
        (dsSame one zero op a b).length = a.length) ∧
    eqDDBoolsI [] [] = some [] ∧ eqDSBoolsI [] 0 = [] ∧
    eqDDSameI [] [] = some [] ∧ eqDSSameI [] 0 = [] := by
  have hdep : ∀ (α : Type) (op : α → α → Bool) (a b b' : List α),
      a.length ≤ b.length → a.length ≤ b'.length →
      b.take a.length = b'.take a.length → ddBools op a b = ddBools op a b' := by
    intro α op a b b' hb hb' ht
    rw [ddBools_take op a b hb, ddBools_take op a b' hb', ht]
  refine ⟨fun α op a b h => by rw [ddBools_eq_zipWith op a b h]; rfl,
    fun α op a b h => ?_, hdep,
    fun α one zero op a b b' hb hb' ht => ?_,
    fun α one zero op a b h => ?_,
    fun α op a b => by simp [dsBools],
    fun α one zero op a b => by simp [dsSame],
    by decide, by decide, by decide, by decide⟩
  · rw [ddBools_eq_zipWith op a b h]
    simp only [Option.getD_some, List.length_zipWith]
    omega
  · rw [ddSame_eq_map_ddBools, ddSame_eq_map_ddBools, hdep α op a b b' hb hb' ht]
  · rw [ddSame_eq_map_ddBools, ddBools_eq_zipWith op a b h]
    simp only [Option.map_some', Option.getD_some, List.length_map, List.length_zipWith]
    omega

theorem kernel_length_and_dependency_witness :
    ddBools (fun x y : Int => x == y) [1] [1, 2] = ddBools (fun x y : Int => x == y) [1] [1, 3] :=
  kernel_length_and_dependency.2.2.1 Int (fun x y : Int => x == y)
    [1] [1, 2] [1, 3] (by decide) (by decide) (by decide)

/-- C7 counterexample: the claim says an array-array kernel "indexes out of
range on a length mismatch", but on a = [1], b = [1,2] the lengths mismatch
and `eqDDBoolsI` completes normally (no out-of-range access), returning
[true]. -/
theorem length_mismatch_without_fault :
    eqDDBoolsI [1] [1, 2] = some [true] ∧
    ([(1 : Int)].length = [(1 : Int), 2].length → False) := by
  constructor
  · decide
  · intro h
    simp at h

/-- C7 (amended): array-array kernels have the equal-length precondition; the
implementation does not validate it and faults (indexes out of range, modelled
by `none`) exactly when the second argument is shorter than the first; under
the equal-length precondition every index access is in range and no kernel
call faults. -/
theorem kernel_fault_iff_second_shorter :
    (∀ (α : Type) (op : α → α → Bool) (a b : List α),
        ddBools op a b = none ↔ b.length < a.length) ∧
    (∀ (α : Type) (one zero : α) (op : α → α → Bool) (a b : List α),
        ddSame one zero op a b = none ↔ b.length < a.length) ∧
    (∀ (α : Type) (op : α → α → Bool) (a b : List α), a.length = b.length →
        (ddBools op a b).isSome = true) ∧
    (∀ (α : Type) (one zero : α) (op : α → α → Bool) (a b : List α),
        a.length = b.length → (ddSame one zero op a b).isSome = true) := by
  have hsame : ∀ (α : Type) (one zero : α) (op : α → α → Bool) (a b : List α),
      ddSame one zero op a b = none ↔ b.length < a.length := by
    intro α one zero op a b
    rw [ddSame_eq_map_ddBools]
    cases hr : ddBools op a b with
    | none => simpa [hr] using (ddBools_none_iff op a b).mp hr
    | some r =>
        simp only [hr, Option.map_some']
        constructor
        · intro hc; exact absurd hc (by simp)
        · intro hlt
          exact absurd ((ddBools_none_iff op a b).mpr hlt) (by simp [hr])
  refine ⟨fun α op a b => ddBools_none_iff op a b, hsame,
    fun α op a b h => by rw [ddBools_eq_zipWith op a b (Nat.le_of_eq h)]; rfl,
    fun α one zero op a b h => ?_⟩
  rw [ddSame_eq_map_ddBools, ddBools_eq_zipWith op a b (Nat.le_of_eq h)]
  rfl

theorem kernel_fault_iff_second_shorter_witness :
    (ddBools (fun x y : Int => x == y) [1, 2] [3, 4]).isSome = true :=
  kernel_fault_iff_second_shorter.2.2.1 Int (fun x y : Int => x == y) [1, 2] [3, 4] rfl


/-- Comparison operators appearing in the generated kernel matrix. -/
inductive CmpOp where
  | eq | gt | gte | lt | lte
deriving DecidableEq

/-- The data kinds of the type catalog (the Go element types of the
generated kernels). -/
inductive DataKind where
  | b | i | i8 | i16 | i32 | i64 | u | u8 | u16 | u32 | u64
  | uintptr | f32 | f64 | c64 | c128 | str | unsafePointer
deriving DecidableEq

/-- Shape variant: array-array (`DD`) or array-scalar (`DS`). -/
inductive Shape where
  | dd | ds
deriving DecidableEq

/-- Result kind: boolean mask (`Bools`) or same-type indicator (`Same`). -/
inductive ResultKind where
  | bools | same
deriving DecidableEq

/-- Identity of one generated kernel function. -/
structure KernelVariant where
  op : CmpOp
  kind : DataKind
  shape : Shape
  result : ResultKind
deriving DecidableEq

/-- The ordering operators among the comparison operators. -/
def orderingOps : List CmpOp := [.gt, .gte, .lt, .lte]

/-- The pointer kinds of the type catalog: the pointer-sized integer
(`uintptr`) and the opaque pointer (`unsafe.Pointer`). -/
def pointerKinds : List DataKind := [.uintptr, .unsafePointer]

/-- The kernel functions of the `eq` section of the generated file, in file order. -/
def eqKernels : List KernelVariant := [
  ⟨.eq, .b, .dd, .bools⟩,
  ⟨.eq, .b, .ds, .bools⟩,
  ⟨.eq, .i, .dd, .bools⟩,
  ⟨.eq, .i, .dd, .same⟩,
  ⟨.eq, .i, .ds, .bools⟩,
  ⟨.eq, .i, .ds, .same⟩,
  ⟨.eq, .i8, .dd, .bools⟩,
  ⟨.eq, .i8, .dd, .same⟩,
  ⟨.eq, .i8, .ds, .bools⟩,
  ⟨.eq, .i8, .ds, .same⟩,
  ⟨.eq, .i16, .dd, .bools⟩,
  ⟨.eq, .i16, .dd, .same⟩,
  ⟨.eq, .i16, .ds, .bools⟩,
  ⟨.eq, .i16, .ds, .same⟩,
  ⟨.eq, .i32, .dd, .bools⟩,
  ⟨.eq, .i32, .dd, .same⟩,
  ⟨.eq, .i32, .ds, .bools⟩,
  ⟨.eq, .i32, .ds, .same⟩,
  ⟨.eq, .i64, .dd, .bools⟩,
  ⟨.eq, .i64, .dd, .same⟩,
  ⟨.eq, .i64, .ds, .bools⟩,
  ⟨.eq, .i64, .ds, .same⟩,
  ⟨.eq, .u, .dd, .bools⟩,
  ⟨.eq, .u, .dd, .same⟩,
  ⟨.eq, .u, .ds, .bools⟩,
  ⟨.eq, .u, .ds, .same⟩,
  ⟨.eq, .u8, .dd, .bools⟩,
  ⟨.eq, .u8, .dd, .same⟩,
  ⟨.eq, .u8, .ds, .bools⟩,
  ⟨.eq, .u8, .ds, .same⟩,
  ⟨.eq, .u16, .dd, .bools⟩,
  ⟨.eq, .u16, .dd, .same⟩,
  ⟨.eq, .u16, .ds, .bools⟩,
  ⟨.eq, .u16, .ds, .same⟩,
  ⟨.eq, .u32, .dd, .bools⟩,
  ⟨.eq, .u32, .dd, .same⟩,
  ⟨.eq, .u32, .ds, .bools⟩,
  ⟨.eq, .u32, .ds, .same⟩,
  ⟨.eq, .u64, .dd, .bools⟩,
  ⟨.eq, .u64, .dd, .same⟩,
  ⟨.eq, .u64, .ds, .bools⟩,
  ⟨.eq, .u64, .ds, .same⟩,
  ⟨.eq, .uintptr, .dd, .bools⟩,
  ⟨.eq, .uintptr, .ds, .bools⟩,
  ⟨.eq, .f32, .dd, .bools⟩,
  ⟨.eq, .f32, .dd, .same⟩,
  ⟨.eq, .f32, .ds, .bools⟩,
  ⟨.eq, .f32, .ds, .same⟩,
  ⟨.eq, .f64, .dd, .bools⟩,
  ⟨.eq, .f64, .dd, .same⟩,
  ⟨.eq, .f64, .ds, .bools⟩,
  ⟨.eq, .f64, .ds, .same⟩,
  ⟨.eq, .c64, .dd, .bools⟩,
  ⟨.eq, .c64, .dd, .same⟩,
  ⟨.eq, .c64, .ds, .bools⟩,
  ⟨.eq, .c64, .ds, .same⟩,
  ⟨.eq, .c128, .dd, .bools⟩,
  ⟨.eq, .c128, .dd, .same⟩,
  ⟨.eq, .c128, .ds, .bools⟩,
  ⟨.eq, .c128, .ds, .same⟩,
  ⟨.eq, .str, .dd, .bools⟩,
  ⟨.eq, .str, .ds, .bools⟩,
  ⟨.eq, .unsafePointer, .dd, .bools⟩,
  ⟨.eq, .unsafePointer, .ds, .bools⟩]

/-- The kernel functions of the `gt` section of the generated file, in file order. -/
def gtKernels : List KernelVariant := [
  ⟨.gt, .i, .dd, .bools⟩,
  ⟨.gt, .i, .dd, .same⟩,
  ⟨.gt, .i, .ds, .bools⟩,
  ⟨.gt, .i, .ds, .same⟩,
  ⟨.gt, .i8, .dd, .bools⟩,
  ⟨.gt, .i8, .dd, .same⟩,
  ⟨.gt, .i8, .ds, .bools⟩,
  ⟨.gt, .i8, .ds, .same⟩,
  ⟨.gt, .i16, .dd, .bools⟩,
  ⟨.gt, .i16, .dd, .same⟩,
  ⟨.gt, .i16, .ds, .bools⟩,
  ⟨.gt, .i16, .ds, .same⟩,
  ⟨.gt, .i32, .dd, .bools⟩,
  ⟨.gt, .i32, .dd, .same⟩,
  ⟨.gt, .i32, .ds, .bools⟩,
  ⟨.gt, .i32, .ds, .same⟩,
  ⟨.gt, .i64, .dd, .bools⟩,
  ⟨.gt, .i64, .dd, .same⟩,
  ⟨.gt, .i64, .ds, .bools⟩,
  ⟨.gt, .i64, .ds, .same⟩,
  ⟨.gt, .u, .dd, .bools⟩,
  ⟨.gt, .u, .dd, .same⟩,
  ⟨.gt, .u, .ds, .bools⟩,
  ⟨.gt, .u, .ds, .same⟩,
  ⟨.gt, .u8, .dd, .bools⟩,
  ⟨.gt, .u8, .dd, .same⟩,
  ⟨.gt, .u8, .ds, .bools⟩,
  ⟨.gt, .u8, .ds, .same⟩,
  ⟨.gt, .u16, .dd, .bools⟩,
  ⟨.gt, .u16, .dd, .same⟩,
  ⟨.gt, .u16, .ds, .bools⟩,
  ⟨.gt, .u16, .ds, .same⟩,
  ⟨.gt, .u32, .dd, .bools⟩,
  ⟨.gt, .u32, .dd, .same⟩,
  ⟨.gt, .u32, .ds, .bools⟩,
  ⟨.gt, .u32, .ds, .same⟩,
  ⟨.gt, .u64, .dd, .bools⟩,
  ⟨.gt, .u64, .dd, .same⟩,
  ⟨.gt, .u64, .ds, .bools⟩,
  ⟨.gt, .u64, .ds, .same⟩,
  ⟨.gt, .uintptr, .dd, .bools⟩,
  ⟨.gt, .uintptr, .ds, .bools⟩,
  ⟨.gt, .f32, .dd, .bools⟩,
  ⟨.gt, .f32, .dd, .same⟩,
  ⟨.gt, .f32, .ds, .bools⟩,
  ⟨.gt, .f32, .ds, .same⟩,
  ⟨.gt, .f64, .dd, .bools⟩,
  ⟨.gt, .f64, .dd, .same⟩,
  ⟨.gt, .f64, .ds, .bools⟩,
  ⟨.gt, .f64, .ds, .same⟩,
  ⟨.gt, .str, .dd, .bools⟩,
  ⟨.gt, .str, .ds, .bools⟩]

/-- The kernel functions of the `gte` section of the generated file, in file order. -/
def gteKernels : List KernelVariant := [
  ⟨.gte, .i, .dd, .bools⟩,
  ⟨.gte, .i, .dd, .same⟩,
  ⟨.gte, .i, .ds, .bools⟩,
  ⟨.gte, .i, .ds, .same⟩,
  ⟨.gte, .i8, .dd, .bools⟩,
  ⟨.gte, .i8, .dd, .same⟩,
  ⟨.gte, .i8, .ds, .bools⟩,
  ⟨.gte, .i8, .ds, .same⟩,
  ⟨.gte, .i16, .dd, .bools⟩,
  ⟨.gte, .i16, .dd, .same⟩,
  ⟨.gte, .i16, .ds, .bools⟩,
  ⟨.gte, .i16, .ds, .same⟩,
  ⟨.gte, .i32, .dd, .bools⟩,
  ⟨.gte, .i32, .dd, .same⟩,
  ⟨.gte, .i32, .ds, .bools⟩,
  ⟨.gte, .i32, .ds, .same⟩,
  ⟨.gte, .i64, .dd, .bools⟩,
  ⟨.gte, .i64, .dd, .same⟩,
  ⟨.gte, .i64, .ds, .bools⟩,
  ⟨.gte, .i64, .ds, .same⟩,
  ⟨.gte, .u, .dd, .bools⟩,
  ⟨.gte, .u, .dd, .same⟩,
  ⟨.gte, .u, .ds, .bools⟩,
  ⟨.gte, .u, .ds, .same⟩,
  ⟨.gte, .u8, .dd, .bools⟩,
  ⟨.gte, .u8, .dd, .same⟩,
  ⟨.gte, .u8, .ds, .bools⟩,
  ⟨.gte, .u8, .ds, .same⟩,
  ⟨.gte, .u16, .dd, .bools⟩,
  ⟨.gte, .u16, .dd, .same⟩,
  ⟨.gte, .u16, .ds, .bools⟩,
  ⟨.gte, .u16, .ds, .same⟩,
  ⟨.gte, .u32, .dd, .bools⟩,
  ⟨.gte, .u32, .dd, .same⟩,
  ⟨.gte, .u32, .ds, .bools⟩,
  ⟨.gte, .u32, .ds, .same⟩,
  ⟨.gte, .u64, .dd, .bools⟩,
  ⟨.gte, .u64, .dd, .same⟩,
  ⟨.gte, .u64, .ds, .bools⟩,
  ⟨.gte, .u64, .ds, .same⟩,
  ⟨.gte, .uintptr, .dd, .bools⟩,
  ⟨.gte, .uintptr, .ds, .bools⟩,
  ⟨.gte, .f32, .dd, .bools⟩,
  ⟨.gte, .f32, .dd, .same⟩,
  ⟨.gte, .f32, .ds, .bools⟩,
  ⟨.gte, .f32, .ds, .same⟩,
  ⟨.gte, .f64, .dd, .bools⟩,
  ⟨.gte, .f64, .dd, .same⟩,
  ⟨.gte, .f64, .ds, .bools⟩,
  ⟨.gte, .f64, .ds, .same⟩,
  ⟨.gte, .str, .dd, .bools⟩,
  ⟨.gte, .str, .ds, .bools⟩]

/-- The kernel functions of the `lt` section of the generated file, in file order. -/
def ltKernels : List KernelVariant := [
  ⟨.lt, .i, .dd, .bools⟩,
  ⟨.lt, .i, .dd, .same⟩,
  ⟨.lt, .i, .ds, .bools⟩,
  ⟨.lt, .i, .ds, .same⟩,
  ⟨.lt, .i8, .dd, .bools⟩,
  ⟨.lt, .i8, .dd, .same⟩,
  ⟨.lt, .i8, .ds, .bools⟩,
  ⟨.lt, .i8, .ds, .same⟩,
  ⟨.lt, .i16, .dd, .bools⟩,
  ⟨.lt, .i16, .dd, .same⟩,
  ⟨.lt, .i16, .ds, .bools⟩,
  ⟨.lt, .i16, .ds, .same⟩,
  ⟨.lt, .i32, .dd, .bools⟩,
  ⟨.lt, .i32, .dd, .same⟩,
  ⟨.lt, .i32, .ds, .bools⟩,
  ⟨.lt, .i32, .ds, .same⟩,
  ⟨.lt, .i64, .dd, .bools⟩,
  ⟨.lt, .i64, .dd, .same⟩,
  ⟨.lt, .i64, .ds, .bools⟩,
  ⟨.lt, .i64, .ds, .same⟩,
  ⟨.lt, .u, .dd, .bools⟩,
  ⟨.lt, .u, .dd, .same⟩,
  ⟨.lt, .u, .ds, .bools⟩,
  ⟨.lt, .u, .ds, .same⟩,
  ⟨.lt, .u8, .dd, .bools⟩,
  ⟨.lt, .u8, .dd, .same⟩,
  ⟨.lt, .u8, .ds, .bools⟩,
  ⟨.lt, .u8, .ds, .same⟩,
  ⟨.lt, .u16, .dd, .bools⟩,
  ⟨.lt, .u16, .dd, .same⟩,
  ⟨.lt, .u16, .ds, .bools⟩,
  ⟨.lt, .u16, .ds, .same⟩,
  ⟨.lt, .u32, .dd, .bools⟩,
  ⟨.lt, .u32, .dd, .same⟩,
  ⟨.lt, .u32, .ds, .bools⟩,
  ⟨.lt, .u32, .ds, .same⟩,
  ⟨.lt, .u64, .dd, .bools⟩,
  ⟨.lt, .u64, .dd, .same⟩,
  ⟨.lt, .u64, .ds, .bools⟩,
  ⟨.lt, .u64, .ds, .same⟩,
  ⟨.lt, .uintptr, .dd, .bools⟩,
  ⟨.lt, .uintptr, .ds, .bools⟩,
  ⟨.lt, .f32, .dd, .bools⟩,
  ⟨.lt, .f32, .dd, .same⟩,
  ⟨.lt, .f32, .ds, .bools⟩,
  ⟨.lt, .f32, .ds, .same⟩,
  ⟨.lt, .f64, .dd, .bools⟩,
  ⟨.lt, .f64, .dd, .same⟩,
  ⟨.lt, .f64, .ds, .bools⟩,
  ⟨.lt, .f64, .ds, .same⟩,
  ⟨.lt, .str, .dd, .bools⟩,
  ⟨.lt, .str, .ds, .bools⟩]

/-- The kernel functions of the `lte` section of the generated file, in file order. -/
def lteKernels : List KernelVariant := [
  ⟨.lte, .i, .dd, .bools⟩,
  ⟨.lte, .i, .dd, .same⟩,
  ⟨.lte, .i, .ds, .bools⟩,
  ⟨.lte, .i, .ds, .same⟩,
  ⟨.lte, .i8, .dd, .bools⟩,
  ⟨.lte, .i8, .dd, .same⟩,
  ⟨.lte, .i8, .ds, .bools⟩,
  ⟨.lte, .i8, .ds, .same⟩,
  ⟨.lte, .i16, .dd, .bools⟩,
  ⟨.lte, .i16, .dd, .same⟩,
  ⟨.lte, .i16, .ds, .bools⟩,
  ⟨.lte, .i16, .ds, .same⟩,
  ⟨.lte, .i32, .dd, .bools⟩,
  ⟨.lte, .i32, .dd, .same⟩,
  ⟨.lte, .i32, .ds, .bools⟩,
  ⟨.lte, .i32, .ds, .same⟩,
  ⟨.lte, .i64, .dd, .bools⟩,
  ⟨.lte, .i64, .dd, .same⟩,
  ⟨.lte, .i64, .ds, .bools⟩,
  ⟨.lte, .i64, .ds, .same⟩,
  ⟨.lte, .u, .dd, .bools⟩,
  ⟨.lte, .u, .dd, .same⟩,
  ⟨.lte, .u, .ds, .bools⟩,
  ⟨.lte, .u, .ds, .same⟩,
  ⟨.lte, .u8, .dd, .bools⟩,
  ⟨.lte, .u8, .dd, .same⟩,
  ⟨.lte, .u8, .ds, .bools⟩,
  ⟨.lte, .u8, .ds, .same⟩,
  ⟨.lte, .u16, .dd, .bools⟩,
  ⟨.lte, .u16, .dd, .same⟩,
  ⟨.lte, .u16, .ds, .bools⟩,
  ⟨.lte, .u16, .ds, .same⟩,
  ⟨.lte, .u32, .dd, .bools⟩,
  ⟨.lte, .u32, .dd, .same⟩,
  ⟨.lte, .u32, .ds, .bools⟩,
  ⟨.lte, .u32, .ds, .same⟩,
  ⟨.lte, .u64, .dd, .bools⟩,
  ⟨.lte, .u64, .dd, .same⟩,
  ⟨.lte, .u64, .ds, .bools⟩,
  ⟨.lte, .u64, .ds, .same⟩,
  ⟨.lte, .uintptr, .dd, .bools⟩,
  ⟨.lte, .uintptr, .ds, .bools⟩,
  ⟨.lte, .f32, .dd, .bools⟩,
  ⟨.lte, .f32, .dd, .same⟩,
  ⟨.lte, .f32, .ds, .bools⟩,
  ⟨.lte, .f32, .ds, .same⟩,
  ⟨.lte, .f64, .dd, .bools⟩,
  ⟨.lte, .f64, .dd, .same⟩,
  ⟨.lte, .f64, .ds, .bools⟩,
  ⟨.lte, .f64, .ds, .same⟩,
  ⟨.lte, .str, .dd, .bools⟩,
  ⟨.lte, .str, .ds, .bools⟩]

/-- The complete inventory of the generated kernel matrix: one entry per
`func` declaration of the generated file, in file order (272 functions). -/
def kernelMatrix : List KernelVariant :=
  eqKernels ++ gtKernels ++ gteKernels ++ ltKernels ++ lteKernels

set_option maxRecDepth 16384

/-- C6 counterexample: the claim "no ordering-variant kernel exists for
complex, boolean, or pointer kinds" is false for the pointer-sized integer
kind: the generated file contains `gtDDBoolsUintptr` (and its Gte/Lt/Lte
variants), an ordering kernel for a pointer kind. -/
theorem ordering_kernel_for_pointer_kind :
    (⟨.gt, .uintptr, .dd, .bools⟩ : KernelVariant) ∈ kernelMatrix ∧
    CmpOp.gt ∈ orderingOps ∧ DataKind.uintptr ∈ pointerKinds := by
  refine ⟨?_, by decide, by decide⟩
  decide

/-- C6 (amended): in the generated kernel matrix no ordering-variant kernel
(Gt, Gte, Lt, Lte) exists for the complex, boolean, or opaque-pointer kinds —
but ordering kernels do exist for the pointer-sized integer kind (uintptr) —
and no same-type-indicator kernel exists for the boolean, string,
pointer-sized integer, or opaque-pointer kinds; every generated kernel's
(operator, kind, shape, resultKind) combination respects these restrictions. -/
theorem kernel_matrix_capabilities :
    (∀ v ∈ kernelMatrix, v.op ∈ orderingOps →
        v.kind ∉ ([.c64, .c128, .b, .unsafePointer] : List DataKind)) ∧
    (∀ v ∈ kernelMatrix, v.result = ResultKind.same →
        v.kind ∉ ([.b, .str, .uintptr, .unsafePointer] : List DataKind)) ∧
    (⟨.gt, .uintptr, .dd, .bools⟩ : KernelVariant) ∈ kernelMatrix := by
  exact ⟨by decide, by decide, by decide⟩

theorem kernel_matrix_capabilities_witness :
    KernelVariant.kind ⟨.gt, .i, .dd, .bools⟩
      ∉ ([.c64, .c128, .b, .unsafePointer] : List DataKind) :=
  kernel_matrix_capabilities.1 ⟨.gt, .i, .dd, .bools⟩ (by decide) (by decide)

end Tensor

namespace Genapi

/-- One `ast.ValueSpec` of a constant group, as `constTypes` consumes it:
`name` is `spec.Names[0].Name` (a parsed Go const spec always has at least
one name) and `typ` is the declared type when it is an identifier
(`spec.Type.(*ast.Ident).Name`), `none` when the spec carries no type
(`spec.Type == nil`, the usual iota continuation lines). -/
structure ValueSpec where
  name : String
  typ : Option String
deriving DecidableEq

/-- One top-level declaration as `constTypes` distinguishes them: a
`*ast.GenDecl` with its token string and specs, or any other declaration
(`default:` branch). -/
inductive Decl where
  | genDecl (tok : String) (specs : List ValueSpec)
  | other
deriving DecidableEq

/-- The body of the `for _, decl := range decls` loop of `constTypes`
(src/cmd/genapi/main.go:140-177), acting on the accumulated `names`:
non-`const` declarations, empty groups, groups whose first spec has no type
identifier, and groups whose type name differs from `accept` leave `names`
unchanged (`continue`); a matching group appends each spec's first name in
declaration order, skipping any name equal to the sentinel `mx`. -/
def constTypesStep (accept mx : String) (names : List String) : Decl → List String
  | .genDecl tok specs =>
      if tok = "const" then
        match specs with
        | [] => names
        | s0 :: _ =>
          match s0.typ with
          | none => names
          | some typename =>
              if typename = accept then
                names ++ specs.filterMap (fun s => if s.name = mx then none else some s.name)
              else names
      else names
  | .other => names

/-- `func constTypes(decls []ast.Decl, accept, max string) (names []string)`:
folds the loop body over the declarations, starting from the empty name
list. -/
def constTypes (decls : List Decl) (accept mx : String) : List String :=
  decls.foldl (constTypesStep accept mx) []

/-- Modelled from the spec's words ("accept the first group whose declared
type matches"?  cf. the amended claim): the names one constant group
contributes — its members minus the sentinel when the group is a `const`
group declared with type `accept`, nothing otherwise. -/
def groupConsts (accept mx : String) : Decl → List String
  | .genDecl tok specs =>
      if tok = "const" then
        match specs with
        | [] => []
        | s0 :: _ =>
          match s0.typ with
          | none => []
          | some typename =>
              if typename = accept then
                specs.filterMap (fun s => if s.name = mx then none else some s.name)
              else []
      else []
  | .other => []

theorem constTypesStep_eq_append (accept mx : String) (names : List String) (d : Decl) :
    constTypesStep accept mx names d = names ++ groupConsts accept mx d := by
  cases d with
  | other => simp [constTypesStep, groupConsts]
  | genDecl tok specs =>
      by_cases htok : tok = "const"
      · cases specs with
        | nil => simp [constTypesStep, groupConsts, htok]
        | cons s0 rest =>
            cases hty : s0.typ with
            | none => simp [constTypesStep, groupConsts, htok, hty]
            | some typename =>
                by_cases hacc : typename = accept
                · simp [constTypesStep, groupConsts, htok, hty, hacc]
                · simp [constTypesStep, groupConsts, htok, hty, hacc]
      · simp [constTypesStep, groupConsts, htok]

theorem constTypes_foldl_acc (accept mx : String) :
    ∀ (decls : List Decl) (acc : List String),
      decls.foldl (constTypesStep accept mx) acc
        = acc ++ (decls.map (groupConsts accept mx)).flatten := by
  intro decls
  induction decls with
  | nil => intro acc; simp
  | cons d ds ih =>
      intro acc
      simp only [List.foldl_cons, List.map_cons, List.flatten_cons, ih,
        constTypesStep_eq_append, List.append_assoc]

/-- C3 counterexample: with two `const` groups both declared with type `T`,
`constTypes` returns the members of BOTH groups, not only those of the first
matching group as the claim states. -/
theorem constTypes_not_only_first_group :
    constTypes
      [Decl.genDecl "const" [⟨"A", some "T"⟩],
       Decl.genDecl "const" [⟨"B", some "T"⟩]] "T" "mx" = ["A", "B"] ∧
    (["A", "B"] : List String) ≠ ["A"] := by
  constructor
  · rfl
  · decide

/-- C3 (amended): `constTypes` scans the top-level declarations in order and,
for EVERY `const` group whose declared type matches the given type name,
appends that group's member identifiers in declaration order, skipping the
sentinel wherever it appears (not only last); it returns an empty list with
no error when no matching group exists or the matching groups have no
non-sentinel members.  Concretely, the catalog {Add, Sub, maxMarker} with
sentinel "maxMarker" extracts exactly [Add, Sub], in that order, and a
mid-group sentinel is skipped as well. -/
theorem constTypes_collects_matching_groups :
    (∀ (decls : List Decl) (accept mx : String),
        constTypes decls accept mx = (decls.map (groupConsts accept mx)).flatten) ∧
    constTypes
      [Decl.genDecl "const"
        [⟨"Add", some "ʘBinaryOperatorType"⟩, ⟨"Sub", none⟩, ⟨"maxMarker", none⟩]]
      "ʘBinaryOperatorType" "maxMarker" = ["Add", "Sub"] ∧
    constTypes
      [Decl.genDecl "const"
        [⟨"Add", some "ʘBinaryOperatorType"⟩, ⟨"maxMarker", none⟩, ⟨"Sub", none⟩]]
      "ʘBinaryOperatorType" "maxMarker" = ["Add", "Sub"] ∧
    constTypes [Decl.genDecl "var" [⟨"Add", some "T"⟩], Decl.other] "T" "mx" = [] ∧
    constTypes [Decl.genDecl "const" [⟨"X", some "U"⟩]] "T" "mx" = [] ∧
    constTypes [Decl.genDecl "const" []] "T" "mx" = [] ∧
    constTypes [Decl.genDecl "const" [⟨"maxT", some "T"⟩]] "T" "maxT" = [] :=
  ⟨fun decls accept mx => constTypes_foldl_acc accept mx decls [],
   rfl, rfl, rfl, rfl, rfl, rfl⟩

/-- Go `strings.TrimSuffix(s, suffix)`: drops the suffix when present,
otherwise returns `s` unchanged.  Embedded on the character lists of the
strings (the identifiers involved are ASCII, where Go's byte-level
operation and the character-level one coincide). -/
def trimSuffix (s suffix : String) : String :=
  if suffix.data.isSuffixOf s.data then ⟨s.data.take (s.data.length - suffix.data.length)⟩
  else s

/-- Go `strings.Title` as applied to a single-word identifier (the operator
names contain no separators): the first character is upper-cased. -/
def title (s : String) : String :=
  match s.data with
  | [] => s
  | c :: cs => ⟨c.toUpper :: cs⟩

/-- The unary name normalization of `generateUnary`
(src/cmd/genapi/main.go:97-103): `strings.Title(strings.TrimSuffix(v, "OpType"))`,
then the legacy override `Ln → Log`. -/
def unaryApiName (v : String) : String :=
  let apiName := title (trimSuffix v "OpType")
  if apiName = "Ln" then "Log" else apiName

/-- The binary name normalization of `generateBinary`
(src/cmd/genapi/main.go:119-127): `strings.Title(strings.TrimSuffix(v, "OpType"))`,
then the legacy overrides `Mul → HadamardProd`, `Div → HadamardDiv`. -/
def binaryApiName (v : String) : String :=
  let apiName := title (trimSuffix v "OpType")
  if apiName = "Mul" then "HadamardProd"
  else if apiName = "Div" then "HadamardDiv"
  else apiName

/-- `data.AsSame` of `generateBinary` (src/cmd/genapi/main.go:131-135): set
exactly for the six comparison operators. -/
def needsResultFlag (apiName : String) : Bool :=
  if apiName = "Lt" then true
  else if apiName = "Gt" then true
  else if apiName = "Lte" then true
  else if apiName = "Gte" then true
  else if apiName = "Eq" then true
  else if apiName = "Ne" then true
  else false

/-- C4: for every internal operator name the normalizer produces
Capitalize(stripSuffix(name, "OpType")), except that the override table maps
the stripped-and-capitalized form "Ln" to "Log" for unary operators and
"Mul" to "HadamardProd" / "Div" to "HadamardDiv" for binary operators;
normalization is a total function on names (it is a Lean `def`). -/
theorem name_normalizer_rules :
    (∀ v : String, title (trimSuffix v "OpType") ≠ "Ln" →
        unaryApiName v = title (trimSuffix v "OpType")) ∧
    unaryApiName "lnOpType" = "Log" ∧
    (∀ v : String, title (trimSuffix v "OpType") ≠ "Mul" →
        title (trimSuffix v "OpType") ≠ "Div" →
        binaryApiName v = title (trimSuffix v "OpType")) ∧
    binaryApiName "mulOpType" = "HadamardProd" ∧
    binaryApiName "divOpType" = "HadamardDiv" ∧
    binaryApiName "lnOpType" = "Ln" := by
  refine ⟨fun v h => ?_, by decide, fun v h1 h2 => ?_, by decide, by decide, by decide⟩
  · simp [unaryApiName, h]
  · simp [binaryApiName, h1, h2]

theorem name_normalizer_rules_witness :
    unaryApiName "expOpType" = "Exp" ∧ binaryApiName "addOpType" = "Add" :=
  ⟨(name_normalizer_rules.1 "expOpType" (by decide)).trans (by decide),
   (name_normalizer_rules.2.2.1 "addOpType" (by decide) (by decide)).trans (by decide)⟩

/-- A leaf node of a parsed text/template: literal text, a field reference
`.Name`, or the call `lower .Name` (the one function in the generator's
FuncMap). -/
inductive FlatNode where
  | text (s : String)
  | field (name : String)
  | lowerField (name : String)
deriving DecidableEq

/-- A node of a parsed template: a leaf, or `if .Name` / `if not .Name`
(with `negated` recording the `not`) choosing between two leaf sequences —
the only action shapes the two templates of the generator use. -/
inductive TmplNode where
  | flat (f : FlatNode)
  | cond (name : String) (negated : Bool) (thn els : List FlatNode)
deriving DecidableEq

/-- A field value of the data struct handed to `Execute`: the generator's
structs carry only `string` and `bool` fields. -/
inductive TmplValue where
  | str (s : String)
  | boolean (b : Bool)
deriving DecidableEq

/-- Field lookup on the data struct, first match wins. -/
def lookupField : List (String × TmplValue) → String → Option TmplValue
  | [], _ => none
  | (k, v) :: rest, n => if k = n then some v else lookupField rest n

/-- Go template truth of a value: a bool is itself, a string is true when
non-empty (Go: any non-zero value). -/
def truthy : TmplValue → Bool
  | .str s => !(s = "")
  | .boolean b => b

/-- Execution of one leaf node: text passes through, a field reference
substitutes the looked-up value (a missing field is the `Execute`-time
error text/template reports), `lower` additionally lower-cases a string. -/
def execFlat (data : List (String × TmplValue)) : FlatNode → Except String String
  | .text s => .ok s
  | .field n =>
      match lookupField data n with
      | some (.str s) => .ok s
      | some (.boolean b) => .ok (if b then "true" else "false")
      | none => .error n
  | .lowerField n =>
      match lookupField data n with
      | some (.str s) => .ok s.toLower
      | some (.boolean _) => .error n
      | none => .error n

/-- Execution of a leaf sequence, accumulating into the output writer;
like text/template's `Execute` it stops at the first error, keeping the
output already written. -/
def execFlats (data : List (String × TmplValue)) (acc : String) :
    List FlatNode → String × Option String
  | [] => (acc, none)
  | f :: fs =>
      match execFlat data f with
      | .error e => (acc, some e)
      | .ok s => execFlats data (acc ++ s) fs

/-- Execution of a template's node list against a data struct, accumulating
the written output; stops at the first error (missing field), keeping the
output written so far. -/
def execNodes (data : List (String × TmplValue)) (acc : String) :
    List TmplNode → String × Option String
  | [] => (acc, none)
  | .flat f :: ns =>
      match execFlat data f with
      | .error e => (acc, some e)
      | .ok s => execNodes data (acc ++ s) ns
  | .cond n negated thn els :: ns =>
      match lookupField data n with
      | none => (acc, some n)
      | some v =>
          match execFlats data acc (if (truthy v) != negated then thn else els) with
          | (acc2, some e) => (acc2, some e)
          | (acc2, none) => execNodes data acc2 ns

/-- `tmpl.Execute(outFile, data)`: the text written to the writer, and the
error `Execute` returned (`none` on success). -/
def execTemplate (tmpl : List TmplNode) (data : List (String × TmplValue)) :
    String × Option String :=
  execNodes data "" tmpl

/-- The parsed form of `unaryTemplateRaw` (src/cmd/genapi/main.go:38-40).
The raw text, braces written as escapes, is:
` // \x7b\x7b.FnName\x7d\x7d performs a pointwise \x7b\x7blower .FnName\x7d\x7d.`
then on the next line
`func \x7b\x7b.FnName\x7d\x7d(a *Node) (*Node, error) ... `. -/
def unaryTemplateNodes : List TmplNode := [
  .flat (.text " // "), .flat (.field "FnName"),
  .flat (.text " performs a pointwise "), .flat (.lowerField "FnName"),
  .flat (.text ".\nfunc "), .flat (.field "FnName"),
  .flat (.text "(a *Node) (*Node, error) \x7b return unaryOpNode(newElemUnaryOp("),
  .flat (.field "OpType"),
  .flat (.text ", a), a) \x7d\n")]

/-- The parsed form of `binaryTemplateRaw` (src/cmd/genapi/main.go:42-63),
with text/template's whitespace trimming already applied, as the template
parser does: the `-` markers after `if .AsSame`, the two `end`s and the
`else` trim the whitespace (including newlines) that follows each tag. -/
def binaryTemplateNodes : List TmplNode := [
  .flat (.text "// "), .flat (.field "FnName"),
  .flat (.text " perfors a pointwise "), .flat (.lowerField "FnName"),
  .flat (.text " operation.\n"),
  .cond "AsSame" false
    [.text "//\tretSame indicates if the data type of the return value should be the same as the input data type. It defaults to Bool otherwise.\n"]
    [],
  .flat (.text "func "), .flat (.field "FnName"),
  .flat (.text "(a, b *Node"),
  .cond "AsSame" false [.text ", retSame bool"] [],
  .flat (.text ") (*Node, error) \x7b "),
  .cond "AsSame" true
    [.text "return binOpNode(newElemBinOp(", .field "OpType", .text ", a, b), a, b) "]
    [.text "op := newElemBinOp(", .field "OpType",
     .text ", a, b)\n\top.retSame = retSame\n\treturn binOpNode(op, a, b)\n"],
  .flat (.text "\x7d\n\n// "), .flat (.field "FnName"),
  .flat (.text "Op ...\nfunc New"), .flat (.field "FnName"),
  .flat (.text "Operation() Operation \x7b\n\treturn func(g graph.WeightedDirected, n node.Node) (ops.Op, error) \x7b\n\t\tit := getOrderedChildren(g, n)\n\t\tchildren := make([]*Node, it.Len())\n\t\tfor i := 0; it.Next(); i++ \x7b\n\t\t\tchildren[i] = it.Node().(*Node)\n\t\t\x7d\n\t\treturn newElemBinOp("),
  .flat (.field "OpType"),
  .flat (.text ", children[0], children[1]), nil\n\t\x7d\n\x7d\n")]

/-- The data struct `struct\x7b FnName, OpType string \x7d` of
`generateUnary`, as a field environment. -/
def unaryData (fnName opType : String) : List (String × TmplValue) :=
  [("FnName", .str fnName), ("OpType", .str opType)]

/-- The data struct `struct\x7b FnName, OpType string; AsSame bool \x7d` of
`generateBinary`, as a field environment. -/
def binaryData (fnName opType : String) (asSame : Bool) : List (String × TmplValue) :=
  [("FnName", .str fnName), ("OpType", .str opType), ("AsSame", .boolean asSame)]

/-- The rendering loop pattern of `generateUnary`/`generateBinary`: execute
the template once per data struct, appending whatever `Execute` wrote to
the output file and discarding the error `Execute` returns (the Go code
ignores it), then continue with the next descriptor. -/
def renderAll (tmpl : List TmplNode) : List (List (String × TmplValue)) → String
  | [] => ""
  | d :: ds => (execTemplate tmpl d).1 ++ renderAll tmpl ds

/-- The text `generateUnary` appends to the output file, given the
extracted unary operator names. -/
def generateUnaryOut (names : List String) : String :=
  renderAll unaryTemplateNodes (names.map (fun v => unaryData (unaryApiName v) v))

/-- The text `generateBinary` appends to the output file, given the
extracted binary operator names. -/
def generateBinaryOut (names : List String) : String :=
  renderAll binaryTemplateNodes
    (names.map (fun v => binaryData (binaryApiName v) v (needsResultFlag (binaryApiName v))))

/-- C5: `needsResultFlag` (the template's `AsSame`) holds exactly for the
public names Lt, Gt, Lte, Gte, Eq, Ne, and it alone decides the emitted
function's shape: with the flag the rendered function takes an extra
`retSame bool` parameter and sets `op.retSame` from it before delegating to
`binOpNode`; without it the function delegates directly to
`binOpNode(newElemBinOp(...))` with no extra parameter.  The equations give
the full rendered text for an arbitrary descriptor, so the conditional
parts depend on nothing but the flag. -/
theorem binary_flag_decides_shape :
    (∀ s : String, needsResultFlag s = true ↔
        (s = "Lt" ∨ s = "Gt" ∨ s = "Lte" ∨ s = "Gte" ∨ s = "Eq" ∨ s = "Ne")) ∧
    (∀ fn op : String,
      (execTemplate binaryTemplateNodes (binaryData fn op false)).1 =
        "// " ++ fn ++ " perfors a pointwise " ++ fn.toLower ++ " operation.\n" ++
        "func " ++ fn ++ "(a, b *Node" ++ ") (*Node, error) \x7b " ++
        "return binOpNode(newElemBinOp(" ++ op ++ ", a, b), a, b) " ++
        "\x7d\n\n// " ++ fn ++ "Op ...\nfunc New" ++ fn ++
        "Operation() Operation \x7b\n\treturn func(g graph.WeightedDirected, n node.Node) (ops.Op, error) \x7b\n\t\tit := getOrderedChildren(g, n)\n\t\tchildren := make([]*Node, it.Len())\n\t\tfor i := 0; it.Next(); i++ \x7b\n\t\t\tchildren[i] = it.Node().(*Node)\n\t\t\x7d\n\t\treturn newElemBinOp(" ++
        op ++ ", children[0], children[1]), nil\n\t\x7d\n\x7d\n") ∧
    (∀ fn op : String,
      (execTemplate binaryTemplateNodes (binaryData fn op true)).1 =
        "// " ++ fn ++ " perfors a pointwise " ++ fn.toLower ++ " operation.\n" ++
        "//\tretSame indicates if the data type of the return value should be the same as the input data type. It defaults to Bool otherwise.\n" ++
        "func " ++ fn ++ "(a, b *Node" ++ ", retSame bool" ++ ") (*Node, error) \x7b " ++
        "op := newElemBinOp(" ++ op ++ ", a, b)\n\top.retSame = retSame\n\treturn binOpNode(op, a, b)\n" ++
        "\x7d\n\n// " ++ fn ++ "Op ...\nfunc New" ++ fn ++
        "Operation() Operation \x7b\n\treturn func(g graph.WeightedDirected, n node.Node) (ops.Op, error) \x7b\n\t\tit := getOrderedChildren(g, n)\n\t\tchildren := make([]*Node, it.Len())\n\t\tfor i := 0; it.Next(); i++ \x7b\n\t\t\tchildren[i] = it.Node().(*Node)\n\t\t\x7d\n\t\treturn newElemBinOp(" ++
        op ++ ", children[0], children[1]), nil\n\t\x7d\n\x7d\n") := by
  refine ⟨fun s => ?_, fun fn op => rfl, fun fn op => rfl⟩
  unfold needsResultFlag
  split_ifs with h1 h2 h3 h4 h5 h6 <;> simp_all

/-- C8 counterexample: a missing template field does NOT abort the run.
Executing a template containing the unresolvable field `.Bogus` yields an
error from `Execute`, but the generator loop discards that error
(`binaryTemplate.Execute(outFile, data)`, return value ignored,
src/cmd/genapi/main.go:136) and keeps rendering: over two descriptors the
run completes and the output contains the text written for BOTH, instead of
terminating at the first failure. -/
theorem missing_field_does_not_abort :
    (execTemplate [TmplNode.flat (.text "A"), TmplNode.flat (.field "Bogus")]
        (binaryData "Eq" "eqOpType" true)).2 = some "Bogus" ∧
    renderAll [TmplNode.flat (.text "A"), TmplNode.flat (.field "Bogus")]
        [binaryData "Eq" "eqOpType" true, binaryData "Ne" "neOpType" true] = "AA" :=
  ⟨rfl, rfl⟩

/-- C8 (amended): template rendering is pure text substitution over the
descriptor (it is a function of the template and the field environment);
an invalid template aborts at initialization (`template.Must` panics before
any rendering), but an `Execute`-time error such as a missing field is
discarded by the generator loop, which continues with the next operator —
for the program's two fixed templates every referenced field exists in the
corresponding data struct, so their rendering never errors and the
distinction is unobservable in a run of the tool. -/
theorem template_render_contract :
    (∀ fn op : String, (execTemplate unaryTemplateNodes (unaryData fn op)).2 = none) ∧
    (∀ (fn op : String) (s : Bool),
        (execTemplate binaryTemplateNodes (binaryData fn op s)).2 = none) ∧
    (∀ (tmpl : List TmplNode) (d : List (String × TmplValue))
        (ds : List (List (String × TmplValue))),
        renderAll tmpl (d :: ds) = (execTemplate tmpl d).1 ++ renderAll tmpl ds) :=
  ⟨fun fn op => rfl, fun fn op s => by cases s <;> rfl, fun tmpl d ds => rfl⟩

end Genapi
